import Mathlib

/-
  Verification development for the datetimerange-picker repository.

  The source (TypeScript, Luxon-based) is shallowly embedded below:
  - DT models a Luxon DateTime as civil calendar fields; Luxon DateTime
    instants compare by timestamp, which on valid field values coincides
    with lexicographic comparison of (year, month, day, hour, minute,
    second); the sources never touch milliseconds, so endOf day is
    modelled as 23:59:59.
  - Dur models a Luxon Duration as a whole number of days (the sources
    only ever pass a duration to DateTime.plus).
  - Picker models the state of the DateRangePicker class (the fields its
    command handlers read and write); DOM rendering and event wiring are
    not modelled, commands return the new state plus the list of emitted
    notifications.
-/

namespace DRP

/-- Civil datetime value, modelling a Luxon DateTime in the local zone. -/
structure DT where
  year : Int
  month : Nat
  day : Nat
  hour : Nat
  minute : Nat
  second : Nat
  deriving DecidableEq, Repr

/-- Instant order on DateTime values (Luxon compares by timestamp, which is
lexicographic on civil fields for in-range field values). -/
def DT.lt (a b : DT) : Bool :=
  if a.year ≠ b.year then a.year < b.year
  else if a.month ≠ b.month then a.month < b.month
  else if a.day ≠ b.day then a.day < b.day
  else if a.hour ≠ b.hour then a.hour < b.hour
  else if a.minute ≠ b.minute then a.minute < b.minute
  else a.second < b.second

/-- Luxon startOf day: zero the time fields. -/
def DT.startOfDay (dt : DT) : DT :=
  { dt with hour := 0, minute := 0, second := 0 }

/-- Luxon endOf day (the sources never consume milliseconds, so the last
modelled instant of the day is 23:59:59). -/
def DT.endOfDay (dt : DT) : DT :=
  { dt with hour := 23, minute := 59, second := 59 }

/-- Luxon set with a day field. -/
def DT.setDay (dt : DT) (d : Nat) : DT :=
  { dt with day := d }

/-- Luxon set with hour, minute and second fields. -/
def DT.withTime (dt : DT) (h mi s : Nat) : DT :=
  { dt with hour := h, minute := mi, second := s }

/-- Leap year test of the proleptic Gregorian calendar. -/
def isLeap (y : Int) : Bool :=
  (y % 4 == 0 && y % 100 != 0) || y % 400 == 0

/-- Number of days in a civil month. -/
def daysInMonth (y : Int) (m : Nat) : Nat :=
  if m = 2 then (if isLeap y then 29 else 28)
  else if m = 4 ∨ m = 6 ∨ m = 9 ∨ m = 11 then 30
  else 31

/-- Day number of a civil date (days since 1970-01-01), the standard
closed-form civil-to-day conversion; it underlies the weekday used by the
grid builder. -/
def DT.toRd (dt : DT) : Int :=
  let y : Int := if dt.month ≤ 2 then dt.year - 1 else dt.year
  let mp : Int := if dt.month ≤ 2 then (dt.month : Int) + 9 else (dt.month : Int) - 3
  365 * y + y / 4 - y / 100 + y / 400 + (153 * mp + 2) / 5 + (dt.day : Int) - 1 - 719468

/-- Luxon weekday, 1 = Monday .. 7 = Sunday (1970-01-01 was a Thursday). -/
def DT.weekday (dt : DT) : Nat :=
  ((dt.toRd + 3) % 7).toNat + 1

/-- Luxon plus of one day: step to the next calendar day. -/
def DT.plusOneDay (dt : DT) : DT :=
  if dt.day < daysInMonth dt.year dt.month then { dt with day := dt.day + 1 }
  else if dt.month < 12 then { dt with month := dt.month + 1, day := 1 }
  else { dt with year := dt.year + 1, month := 1, day := 1 }

/-- Luxon minus of one day: step to the previous calendar day. -/
def DT.minusOneDay (dt : DT) : DT :=
  if 1 < dt.day then { dt with day := dt.day - 1 }
  else if 1 < dt.month then { dt with month := dt.month - 1, day := daysInMonth dt.year (dt.month - 1) }
  else { dt with year := dt.year - 1, month := 12, day := 31 }

/-- Luxon plus of n days. -/
def DT.plusDays : DT → Nat → DT
  | dt, 0 => dt
  | dt, n + 1 => (dt.plusDays n).plusOneDay

/-- Luxon minus of n days. -/
def DT.minusDays : DT → Nat → DT
  | dt, 0 => dt
  | dt, n + 1 => (dt.minusDays n).minusOneDay

/-- Zero-based month counter, used to state month distances between anchors. -/
def DT.monthIdx (dt : DT) : Int :=
  12 * dt.year + (dt.month : Int) - 1

/-- Luxon plus of k months (day of month clamped to the target month length,
time of day preserved). -/
def DT.plusMonths (dt : DT) (k : Int) : DT :=
  let total := dt.monthIdx + k
  let y := total / 12
  let m := (total % 12).toNat + 1
  { dt with year := y, month := m, day := min dt.day (daysInMonth y m) }

/-- Luxon hasSame with day granularity: same civil calendar day. -/
def sameDay (a b : DT) : Bool :=
  a.year == b.year && a.month == b.month && a.day == b.day

/-- Strict order on the calendar-day part alone. -/
def dayLt (a b : DT) : Bool :=
  if a.year ≠ b.year then a.year < b.year
  else if a.month ≠ b.month then a.month < b.month
  else a.day < b.day

/-- Valid time-of-day fields (every DateTime the program builds has them). -/
def DT.validTime (dt : DT) : Prop :=
  dt.hour ≤ 23 ∧ dt.minute ≤ 59 ∧ dt.second ≤ 59

instance (dt : DT) : Decidable dt.validTime := by
  unfold DT.validTime; infer_instance

/-- A duration, as the sources use it: a whole number of days handed to
DateTime.plus. -/
structure Dur where
  days : Nat
  deriving DecidableEq, Repr

/-- Luxon plus of a duration. -/
def DT.plusDur (dt : DT) (sp : Dur) : DT :=
  dt.plusDays sp.days

/-- Which calendar a command targets. -/
inductive Side
  | left
  | right
  deriving DecidableEq, Repr

/-
  CalendarRenderer.buildCalendar (src/old_split/src/CalendarRenderer.ts,
  lines 28-63): 6 rows by 7 columns of consecutive days starting at day 1
  of the anchor month minus the first-day-of-week offset, each cell given
  the anchor month value hour, minute and second.
-/

/-- The 6 by 7 calendar matrix built from a month anchor and the locale
first day of week. -/
def buildCalendar (anchor : DT) (firstDay : Nat) : List (List DT) :=
  let firstDayOfMonth : DT := ⟨anchor.year, anchor.month, 1, 0, 0, 0⟩
  let dayOfWeek := (anchor.setDay 1).weekday % 7
  let firstDayOfWeekInLocale := (dayOfWeek + 7 - firstDay) % 7
  let start := firstDayOfMonth.minusDays firstDayOfWeekInLocale
  (List.range 6).map fun r =>
    (List.range 7).map fun c =>
      (start.plusDays (7 * r + c)).withTime anchor.hour anchor.minute anchor.second

/-
  CalendarRenderer.render (src/old_split/src/CalendarRenderer.ts): the
  per-render limits and the per-cell flags the claims are about.
-/

/-- Side-specific lower limit of render (line 73): the left side uses the
global minDate, the right side uses the selection start at start of day. -/
def cellMinLimit (side : Side) (startDate : DT) (minDate : Option DT) : Option DT :=
  match side with
  | .left => minDate
  | .right => some startDate.startOfDay

/-- Upper limit of render (lines 74-82): starts at maxDate; when the end is
absent and a maxSpan is set, the span limit start + maxSpan at end of day
replaces it whenever maxDate is unset or the span limit exceeds it. -/
def cellMaxLimit (startDate : DT) (endDate : Option DT) (maxDate : Option DT) (maxSpan : Option Dur) : Option DT :=
  match endDate, maxSpan with
  | none, some sp =>
    let maxLimit := (startDate.plusDur sp).endOfDay
    match maxDate with
    | none => some maxLimit
    | some md => if DT.lt md maxLimit then some maxLimit else some md
  | _, _ => maxDate

/-- In-range cell flag of render (line 197): end present and the cell lies
strictly after the start at end of day and strictly before the end at start
of day. -/
def isInRangeFlag (date startDate : DT) (endDate : Option DT) : Bool :=
  match endDate with
  | some e => DT.lt startDate.endOfDay date && DT.lt date e.startOfDay
  | none => false

/-- Prev-arrow availability of render (line 93). -/
def isPrevAvailable (side : Side) (linkedCalendars : Bool) (minDateLimit : Option DT) (firstDayCell : DT) : Bool :=
  (match minDateLimit with
   | none => true
   | some m => DT.lt m.startOfDay firstDayCell.startOfDay) &&
  (side == Side.left || !linkedCalendars)

/-- Next-arrow availability of render (line 127). -/
def isNextAvailable (side : Side) (linkedCalendars singleDatePicker : Bool) (maxDateLimit : Option DT) (lastDayCell : DT) : Bool :=
  (match maxDateLimit with
   | none => true
   | some m => DT.lt lastDayCell.endOfDay m.endOfDay) &&
  (side == Side.right || !linkedCalendars || singleDatePicker)

/-
  TimePickerRenderer.render (src/old_split, appended to types.ts, lines
  86-94): the effective ceiling of the time options.
-/

/-- Upper limit of the time picker: whenever a maxSpan is set, start +
maxSpan replaces maxDate if maxDate is unset or larger; no end-of-day
rounding and no dependence on the end being present. -/
def timeMaxLimit (startDate : DT) (maxDate : Option DT) (maxSpan : Option Dur) : Option DT :=
  match maxSpan with
  | some sp =>
    let maxLimit := startDate.plusDur sp
    match maxDate with
    | none => some maxLimit
    | some md => if DT.lt maxLimit md then some maxLimit else some md
  | none => maxDate

/-- Hover mark of DateRangePicker.hoverDate (src/unnamed/part_001, line
553): a cell gets the in-range class when it lies strictly between the
start at end of day and the hovered date at start of day, or shares the
hovered date calendar day. -/
def hoverInRange (startDate d hovered : DT) : Bool :=
  (DT.lt startDate.endOfDay d && DT.lt d hovered.startOfDay) || sameDay d hovered

/-
  DateRangePicker (src/unnamed/part_001): the engine state and its command
  handlers. Fields that are pure presentation (container, proxies, element)
  are not part of the state; handlers return the new state together with
  the notifications they dispatch.
-/

/-- Notifications the engine emits (callback invocation and custom
events). -/
inductive Ev
  | applied (s e : DT) (l : Option String)
  | applyEvt
  | cancelEvt
  | hideEvt
  deriving DecidableEq, Repr

/-- The mutable state and configuration of the DateRangePicker class. -/
structure Picker where
  startDate : DT
  endDate : Option DT
  oldStartDate : DT
  oldEndDate : DT
  chosenLabel : Option String
  isShowing : Bool
  leftMonth : DT
  rightMonth : DT
  timePicker : Bool
  autoApply : Bool
  singleDatePicker : Bool
  linkedCalendars : Bool
  showCustomRangeLabel : Bool
  customRangeLabel : String
  ranges : List (String × DT × DT)
  minDate : Option DT
  maxDate : Option DT
  maxSpan : Option Dur
  deriving Repr

/-- The anchor pair computed by updateMonthsInView (part_001 lines
382-400): derive the anchors from the selection when the end is present,
then apply the maxDate overflow correction in linked non-single mode. -/
def monthsInView (p : Picker) : DT × DT :=
  let fromSel :=
    match p.endDate with
    | some e =>
      let lm := p.startDate.setDay 2
      let rm :=
        if !p.linkedCalendars && (e.month ≠ p.startDate.month || e.year ≠ p.startDate.year)
        then e.setDay 2
        else (p.startDate.setDay 2).plusMonths 1
      (lm, rm)
    | none => (p.leftMonth, p.rightMonth)
  match p.maxDate with
  | some md =>
    if p.linkedCalendars && !p.singleDatePicker && DT.lt md fromSel.2
    then ((md.setDay 2).plusMonths (-1), md.setDay 2)
    else fromSel
  | none => fromSel

/-- updateMonthsInView (part_001 lines 382-400): it writes only the two
anchors. -/
def updateMonthsInView (p : Picker) : Picker :=
  { p with leftMonth := (monthsInView p).1, rightMonth := (monthsInView p).2 }

/-- setStartDate (part_001 lines 297-304): store the new start, truncated
to start of day when no time picker is active, then refresh the anchors. -/
def setStartDate (p : Picker) (d : DT) : Picker :=
  let p1 := { p with startDate := if p.timePicker then d else d.startOfDay }
  updateMonthsInView p1

/-- setEndDate (part_001 lines 306-314): store the new end, rounded to end
of day when no time picker is active, then refresh the anchors. -/
def setEndDate (p : Picker) (d : DT) : Picker :=
  let p1 := { p with endDate := some (if p.timePicker then d else d.endOfDay) }
  updateMonthsInView p1

/-- calculateChosenLabel (part_001 lines 607-627) scan: first configured
range, custom label excluded, whose endpoints are day-equal to the
selection. A missing end matches nothing (in the source a null end is
never compared because the start comparison short-circuits first on the
reachable states). -/
def findLabel (ranges : List (String × DT × DT)) (custom : String) (s : DT) (e : Option DT) : Option String :=
  match ranges with
  | [] => none
  | (lbl, r0, r1) :: rest =>
    if lbl = custom then findLabel rest custom s e
    else if sameDay s r0 && (match e with | some e1 => sameDay e1 r1 | none => false)
    then some lbl
    else findLabel rest custom s e

/-- The label calculateChosenLabel stores. -/
def chooseLabel (p : Picker) : Option String :=
  match findLabel p.ranges p.customRangeLabel p.startDate p.endDate with
  | some l => some l
  | none => if p.showCustomRangeLabel then some p.customRangeLabel else none

/-- calculateChosenLabel (part_001 lines 607-627): it writes only the
chosen label. -/
def calculateChosenLabel (p : Picker) : Picker :=
  { p with chosenLabel := chooseLabel p }

/-- hide (part_001 lines 334-356): when not showing, do nothing; restore
the old selection only when the end is absent; invoke the callback when
the selection differs from the old one; dispatch the hide event. -/
def hide (p : Picker) : Picker × List Ev :=
  if p.isShowing = false then (p, [])
  else
    let p1 :=
      if p.endDate.isNone
      then { p with startDate := p.oldStartDate, endDate := some p.oldEndDate }
      else p
    let evs :=
      if p1.startDate = p1.oldStartDate ∧ p1.endDate = some p1.oldEndDate
      then ([] : List Ev)
      else [Ev.applied p1.startDate (p1.endDate.getD p1.oldEndDate) p1.chosenLabel]
    ({ p1 with isShowing := false }, evs ++ [Ev.hideEvt])

/-- clickApply (part_001 lines 629-632): hide, then dispatch the apply
event. -/
def clickApply (p : Picker) : Picker × List Ev :=
  let r := hide p
  (r.1, r.2 ++ [Ev.applyEvt])

/-- clickCancel (part_001 lines 634-639): restore the old selection, hide,
dispatch the cancel event. -/
def clickCancel (p : Picker) : Picker × List Ev :=
  let p1 := { p with startDate := p.oldStartDate, endDate := some p.oldEndDate }
  let r := hide p1
  (r.1, r.2 ++ [Ev.cancelEvt])

/-- The state mutations of updateView (part_001 lines 364-372): the anchor
refresh and the chosen-label recomputation performed by updateCalendars;
the remaining calls only redraw. -/
def updateView (p : Picker) : Picker :=
  calculateChosenLabel (updateMonthsInView p)

/-- clickDate (part_001 lines 561-605) on a target date that already
carries any merged time-of-day: the selection branch, the auto-apply
commit, the single-date collapse and the final updateView. -/
def clickDate (p : Picker) (t : DT) : Picker × List Ev :=
  let r1 :=
    if p.endDate.isSome || DT.lt t p.startDate.startOfDay then
      (setStartDate { p with endDate := none } t, ([] : List Ev))
    else
      let p1 := setEndDate p t
      if p1.autoApply then clickApply (calculateChosenLabel p1)
      else (p1, [])
  let r2 :=
    if r1.1.singleDatePicker then
      let p2 := setEndDate r1.1 r1.1.startDate
      if !p2.timePicker && p2.autoApply then clickApply p2
      else (p2, ([] : List Ev))
    else (r1.1, [])
  (updateView r2.1, r1.2 ++ r2.2)

/-- Lookup of this.ranges[label]. -/
def lookupRange (ranges : List (String × DT × DT)) (label : String) : Option (DT × DT) :=
  match ranges with
  | [] => none
  | (lbl, r0, r1) :: rest => if lbl = label then some (r0, r1) else lookupRange rest label

/-- clickRange (part_001 lines 495-509): record the chosen label; the
custom label only reveals the calendars; any other label loads the stored
pair and applies immediately. A label absent from the range map is a
configuration error (the source would fault); it is modelled as a no-op. -/
def clickRange (p : Picker) (label : String) : Picker × List Ev :=
  let p0 := { p with chosenLabel := some label }
  if label = p0.customRangeLabel then (p0, [])
  else
    match lookupRange p0.ranges label with
    | some (r0, r1) => clickApply (setEndDate (setStartDate p0 r0) r1)
    | none => (p0, [])

/-- clickPrev (part_001 lines 511-521): shift the clicked side back one
month; when the left side is clicked in linked mode the right anchor moves
with it, but a click on the right side moves the right anchor alone.
updateCalendars then recomputes the chosen label. -/
def clickPrev (p : Picker) (side : Side) : Picker :=
  let p1 :=
    match side with
    | .left =>
      let q := { p with leftMonth := p.leftMonth.plusMonths (-1) }
      if q.linkedCalendars then { q with rightMonth := q.rightMonth.plusMonths (-1) } else q
    | .right => { p with rightMonth := p.rightMonth.plusMonths (-1) }
  calculateChosenLabel p1

/-- clickNext (part_001 lines 523-533): shift the clicked side forward one
month; when the right side is clicked in linked mode the left anchor moves
with it, but a click on the left side moves the left anchor alone. -/
def clickNext (p : Picker) (side : Side) : Picker :=
  let p1 :=
    match side with
    | .left => { p with leftMonth := p.leftMonth.plusMonths 1 }
    | .right =>
      let q := { p with rightMonth := p.rightMonth.plusMonths 1 }
      if q.linkedCalendars then { q with leftMonth := q.leftMonth.plusMonths 1 } else q
  calculateChosenLabel p1

/-- monthOrYearChanged (part_001 lines 641-664): set the chosen side to
day 2 of the selected year and month; in linked mode the other side is
re-derived at a one month distance. -/
def monthOrYearChanged (p : Picker) (side : Side) (y : Int) (m : Nat) : Picker :=
  let newDate : DT := ⟨y, m, 1, 0, 0, 0⟩
  let p1 :=
    match side with
    | .left =>
      let q := { p with leftMonth := newDate.setDay 2 }
      if q.linkedCalendars then { q with rightMonth := (newDate.setDay 2).plusMonths 1 } else q
    | .right =>
      let q := { p with rightMonth := newDate.setDay 2 }
      if q.linkedCalendars then { q with leftMonth := (newDate.setDay 2).plusMonths (-1) } else q
  calculateChosenLabel p1

/-- updateFormInputs (part_001 lines 727-736): the apply control is
enabled exactly when an end is present and the start does not exceed it
(strictly before, or the same millisecond). -/
def applyEnabled (p : Picker) : Bool :=
  match p.endDate with
  | some e => DT.lt p.startDate e || p.startDate == e
  | none => false

/-
  Auxiliary definitions used by the statements below.
-/
/-- Modelled from the spec, section 4.2: the effective maximum of the cell
classifier is min(maxDate, selection.start + maxSpan), end of day, when the
end is absent, else maxDate as given. Stated only to be compared with the
cellMaxLimit the source computes. -/
def specCellMaxLimit (startDate : DT) (endDate maxDate : Option DT) (maxSpan : Option Dur) : Option DT :=
  match endDate, maxSpan with
  | none, some sp =>
    let cap := (startDate.plusDur sp).endOfDay
    match maxDate with
    | none => some cap
    | some md => some (if DT.lt cap md then cap else md)
  | _, _ => maxDate

/-- Modelled from the spec, section 4.4: the effective ceiling of the time
engine is maxDate, capped by selection.start + maxSpan when the end is
absent, else maxDate as given. Stated only to be compared with the
timeMaxLimit the source computes. -/
def specTimeMaxLimit (startDate : DT) (endDate maxDate : Option DT) (maxSpan : Option Dur) : Option DT :=
  match endDate, maxSpan with
  | none, some sp =>
    let cap := startDate.plusDur sp
    match maxDate with
    | none => some cap
    | some md => some (if DT.lt cap md then cap else md)
  | _, _ => maxDate

/-- A concrete engine state (linked calendars, no time picker, no auto
apply, empty preset list) used by the concrete-input theorems below. -/
def basePicker : Picker :=
  { startDate := ⟨2024,1,2,0,0,0⟩, endDate := some ⟨2024,1,5,23,59,59⟩,
    oldStartDate := ⟨2024,1,2,0,0,0⟩, oldEndDate := ⟨2024,1,5,23,59,59⟩,
    chosenLabel := none, isShowing := true,
    leftMonth := ⟨2024,1,2,0,0,0⟩, rightMonth := ⟨2024,2,2,0,0,0⟩,
    timePicker := false, autoApply := false, singleDatePicker := false,
    linkedCalendars := true, showCustomRangeLabel := false,
    customRangeLabel := "custom", ranges := [],
    minDate := none, maxDate := none, maxSpan := none }

/-- The navigation commands reachable through rendered controls in linked
non-single mode: prev on the left calendar, next on the right calendar,
and the month/year dropdowns of either side. -/
inductive LinkedNavCmd
  | prevLeft
  | nextRight
  | dropLeft (y : Int) (m : Nat)
  | dropRight (y : Int) (m : Nat)

/-- Dispatch one linked-mode navigation command. -/
def runNav (p : Picker) : LinkedNavCmd → Picker
  | .prevLeft => clickPrev p Side.left
  | .nextRight => clickNext p Side.right
  | .dropLeft y m => monthOrYearChanged p Side.left y m
  | .dropRight y m => monthOrYearChanged p Side.right y m

/-- Dispatch a sequence of linked-mode navigation commands. -/
def runNavs (p : Picker) : List LinkedNavCmd → Picker
  | [] => p
  | c :: cs => runNavs (runNav p c) cs

/-- The linked coordinator invariant: both anchors on day 2 and the right
anchor exactly one month after the left one. -/
def anchorInv (p : Picker) : Prop :=
  p.leftMonth.day = 2 ∧ p.rightMonth.day = 2 ∧
  p.rightMonth.monthIdx = p.leftMonth.monthIdx + 1

/-- Cell access in a calendar matrix. -/
def cellAt (g : List (List DT)) (r c : Nat) : DT :=
  (g.getD r []).getD c ⟨0, 1, 1, 0, 0, 0⟩

/-
  General lemmas about the date model and the engine.
-/
/-- Characterization of the instant order. -/
theorem DT.lt_iff (a b : DT) : DT.lt a b = true ↔
    (a.year < b.year ∨ (a.year = b.year ∧ (a.month < b.month ∨ (a.month = b.month ∧
      (a.day < b.day ∨ (a.day = b.day ∧ (a.hour < b.hour ∨ (a.hour = b.hour ∧
      (a.minute < b.minute ∨ (a.minute = b.minute ∧ a.second < b.second)))))))))) := by
  unfold DT.lt
  split_ifs <;> simp_all

/-- Characterization of the calendar-day order. -/
theorem dayLt_iff (a b : DT) : dayLt a b = true ↔
    (a.year < b.year ∨ (a.year = b.year ∧ (a.month < b.month ∨ (a.month = b.month ∧ a.day < b.day)))) := by
  unfold dayLt
  split_ifs <;> simp_all

/-- Characterization of day equality. -/
theorem sameDay_iff (a b : DT) : sameDay a b = true ↔
    a.year = b.year ∧ a.month = b.month ∧ a.day = b.day := by
  simp [sameDay, Bool.and_eq_true, beq_iff_eq, and_assoc]

/-- An instant with valid time fields lies strictly after another day at
end of day exactly when its calendar day is strictly later. -/
theorem lt_endOfDay_iff (s d : DT) (hv : d.validTime) :
    DT.lt s.endOfDay d = true ↔ dayLt s d = true := by
  obtain ⟨h1, h2, h3⟩ := hv
  rw [DT.lt_iff, dayLt_iff]
  simp only [DT.endOfDay]
  omega

/-- An instant lies strictly before another day at start of day exactly
when its calendar day is strictly earlier. -/
theorem lt_startOfDay_iff (d h : DT) :
    DT.lt d h.startOfDay = true ↔ dayLt d h = true := by
  rw [DT.lt_iff, dayLt_iff]
  simp only [DT.startOfDay]
  omega

/-- Every civil month has at least 28 days. -/
theorem daysInMonth_ge (y : Int) (m : Nat) : 28 ≤ daysInMonth y m := by
  unfold daysInMonth
  split_ifs <;> norm_num

/-- Shifting by k months moves the month counter by exactly k. -/
theorem monthIdx_plusMonths (dt : DT) (k : Int) :
    (dt.plusMonths k).monthIdx = dt.monthIdx + k := by
  unfold DT.plusMonths DT.monthIdx
  have h1 := Int.emod_nonneg (12 * dt.year + (dt.month : Int) - 1 + k) (by norm_num : (12:Int) ≠ 0)
  have h2 := Int.ediv_add_emod (12 * dt.year + (dt.month : Int) - 1 + k) 12
  simp only []
  push_cast [Int.toNat_of_nonneg h1]
  omega

/-- Shifting a day-2 anchor by whole months keeps it on day 2. -/
theorem plusMonths_day2 (dt : DT) (k : Int) (h : dt.day = 2) :
    (dt.plusMonths k).day = 2 := by
  unfold DT.plusMonths
  have := daysInMonth_ge ((dt.monthIdx + k) / 12) (((dt.monthIdx + k) % 12).toNat + 1)
  simp only [h]
  omega

/-- Stepping one day commutes with overwriting the time fields. -/
theorem plusOneDay_withTime (x : DT) (h mi s : Nat) :
    (x.withTime h mi s).plusOneDay = x.plusOneDay.withTime h mi s := by
  simp only [DT.withTime, DT.plusOneDay]
  split_ifs <;> rfl

theorem cellAt_buildCalendar (a : DT) (fd r c : Nat) (hr : r < 6) (hc : c < 7) :
    cellAt (buildCalendar a fd) r c =
      (((⟨a.year, a.month, 1, 0, 0, 0⟩ : DT).minusDays
          (((a.setDay 1).weekday % 7 + 7 - fd) % 7)).plusDays (7 * r + c)).withTime
        a.hour a.minute a.second := by
  unfold cellAt buildCalendar
  simp [List.getD_eq_getElem?_getD, List.getElem?_map, List.getElem?_range, hr, hc]

/-- Applying on a showing state with a complete selection keeps the
selection, hides the picker and dispatches the apply event. -/
theorem clickApply_fields (x : Picker) (v : DT) (hS : x.isShowing = true) (hE : x.endDate = some v) :
    (clickApply x).1.startDate = x.startDate ∧
    (clickApply x).1.endDate = x.endDate ∧
    (clickApply x).1.isShowing = false ∧
    Ev.applyEvt ∈ (clickApply x).2 := by
  unfold clickApply hide
  simp [hS, hE]

/-- Each linked-mode-reachable navigation command preserves the anchor
invariant and the linked flag. -/
theorem runNav_anchors (p : Picker) (c : LinkedNavCmd)
    (hl : p.linkedCalendars = true) (h : anchorInv p) :
    anchorInv (runNav p c) ∧ (runNav p c).linkedCalendars = true := by
  obtain ⟨sd, ed, osd, oed, cl, shw, lM, rM, tp, aa, sdp, lc, scr, crl, rgs, mnd, mxd, msp⟩ := p
  dsimp only at hl
  subst hl
  obtain ⟨h1, h2, h3⟩ := h
  dsimp only [anchorInv] at *
  cases c with
  | prevLeft =>
    refine ⟨⟨?_, ?_, ?_⟩, rfl⟩
    · exact plusMonths_day2 lM (-1) h1
    · exact plusMonths_day2 rM (-1) h2
    · show (rM.plusMonths (-1)).monthIdx = (lM.plusMonths (-1)).monthIdx + 1
      rw [monthIdx_plusMonths, monthIdx_plusMonths, h3]
      ring
  | nextRight =>
    refine ⟨⟨?_, ?_, ?_⟩, rfl⟩
    · exact plusMonths_day2 lM 1 h1
    · exact plusMonths_day2 rM 1 h2
    · show (rM.plusMonths 1).monthIdx = (lM.plusMonths 1).monthIdx + 1
      rw [monthIdx_plusMonths, monthIdx_plusMonths, h3]
  | dropLeft y m =>
    refine ⟨⟨rfl, ?_, ?_⟩, rfl⟩
    · exact plusMonths_day2 (DT.setDay ⟨y, m, 1, 0, 0, 0⟩ 2) 1 rfl
    · show ((DT.setDay ⟨y, m, 1, 0, 0, 0⟩ 2).plusMonths 1).monthIdx
        = (DT.setDay ⟨y, m, 1, 0, 0, 0⟩ 2).monthIdx + 1
      rw [monthIdx_plusMonths]
  | dropRight y m =>
    refine ⟨⟨?_, rfl, ?_⟩, rfl⟩
    · exact plusMonths_day2 (DT.setDay ⟨y, m, 1, 0, 0, 0⟩ 2) (-1) rfl
    · show (DT.setDay ⟨y, m, 1, 0, 0, 0⟩ 2).monthIdx
        = ((DT.setDay ⟨y, m, 1, 0, 0, 0⟩ 2).plusMonths (-1)).monthIdx + 1
      rw [monthIdx_plusMonths]
      ring

theorem runNavs_anchorInv (cmds : List LinkedNavCmd) :
    ∀ (p : Picker), p.linkedCalendars = true → anchorInv p →
      anchorInv (runNavs p cmds) := by
  induction cmds with
  | nil => intro p _ h; exact h
  | cons c cs ih =>
    intro p hl h
    have step := runNav_anchors p c hl h
    exact ih _ step.2 step.1

/-
  The claims.
-/

/-- C1 counterexample: with start 2024-01-10, maxSpan 5 days and maxDate
2024-03-01, the cell classifier with an absent end keeps maxDate instead of
the smaller span cap (it takes the larger bound, not the min the claim
states), and the time engine applies the span cap even though the claim
says an effective maximum of maxDate as given when the end is present. -/
theorem c1_counterexample :
    cellMaxLimit ⟨2024,1,10,0,0,0⟩ none (some ⟨2024,3,1,23,59,59⟩) (some ⟨5⟩) ≠
      specCellMaxLimit ⟨2024,1,10,0,0,0⟩ none (some ⟨2024,3,1,23,59,59⟩) (some ⟨5⟩) ∧
    timeMaxLimit ⟨2024,1,10,0,0,0⟩ (some ⟨2024,3,1,23,59,59⟩) (some ⟨5⟩) ≠
      specTimeMaxLimit ⟨2024,1,10,0,0,0⟩ (some ⟨2024,1,20,0,0,0⟩) (some ⟨2024,3,1,23,59,59⟩) (some ⟨5⟩) := by
  decide

/-- C1 (amended): when the end is absent and maxSpan is set, the cell
classifier uses the larger of maxDate and start + maxSpan at end of day
(maxDate as given when the end is present or no span is set), while the
time engine uses the smaller of maxDate and start + maxSpan whenever a
maxSpan is set, independently of the end being present, and maxDate as
given only when no span is set. -/
theorem c1_effective_max_amended (s e md : DT) (omd : Option DT) (sp : Dur) (osp : Option Dur) :
    cellMaxLimit s (some e) omd osp = omd ∧
    cellMaxLimit s none omd none = omd ∧
    cellMaxLimit s none none (some sp) = some ((s.plusDur sp).endOfDay) ∧
    cellMaxLimit s none (some md) (some sp) =
      (if DT.lt md ((s.plusDur sp).endOfDay) then some ((s.plusDur sp).endOfDay) else some md) ∧
    timeMaxLimit s omd none = omd ∧
    timeMaxLimit s none (some sp) = some (s.plusDur sp) ∧
    timeMaxLimit s (some md) (some sp) =
      (if DT.lt (s.plusDur sp) md then some (s.plusDur sp) else some md) := by
  refine ⟨?_, ?_, rfl, rfl, ?_, rfl, rfl⟩
  · cases osp <;> rfl
  · cases omd <;> rfl
  · cases omd <;> rfl

/-- C2 counterexample: in linked mode with anchors January and February
2024, a next command on the left calendar shifts only the left anchor, so
the one-month distance the claim asserts after any prev/next command is
broken. -/
theorem c2_counterexample :
    basePicker.linkedCalendars = true ∧
    basePicker.rightMonth.monthIdx = basePicker.leftMonth.monthIdx + 1 ∧
    (clickNext basePicker Side.left).rightMonth.monthIdx
      ≠ (clickNext basePicker Side.left).leftMonth.monthIdx + 1 := by
  decide

/-- C2 (amended): after any sequence of the navigation commands reachable
through rendered controls in linked mode (prev on the left, next on the
right, dropdowns on either side) the day-2 anchors stay exactly one month
apart; prev-on-left and next-on-right shift both anchors by the same
one-month delta; and the maxDate clamp re-establishes the same one-month
distance. A next on the left (or prev on the right) however shifts only
that anchor even in linked mode; those controls are not rendered there. -/
theorem c2_linked_anchors_amended (p : Picker) (cmds : List LinkedNavCmd) (md : DT)
    (hl : p.linkedCalendars = true) (hinv : anchorInv p) :
    anchorInv (runNavs p cmds) ∧
    ((clickPrev p Side.left).leftMonth.monthIdx = p.leftMonth.monthIdx - 1 ∧
     (clickPrev p Side.left).rightMonth.monthIdx = p.rightMonth.monthIdx - 1 ∧
     (clickNext p Side.right).leftMonth.monthIdx = p.leftMonth.monthIdx + 1 ∧
     (clickNext p Side.right).rightMonth.monthIdx = p.rightMonth.monthIdx + 1) ∧
    (p.maxDate = some md → p.singleDatePicker = false → p.endDate = none →
      DT.lt md p.rightMonth = true → anchorInv (updateMonthsInView p)) := by
  refine ⟨runNavs_anchorInv cmds p hl hinv, ?_, ?_⟩
  · obtain ⟨sd, ed, osd, oed, cl, shw, lM, rM, tp, aa, sdp, lc, scr, crl, rgs, mnd, mxd, msp⟩ := p
    dsimp only at hl ⊢
    subst hl
    refine ⟨?_, ?_, ?_, ?_⟩
    · show (lM.plusMonths (-1)).monthIdx = lM.monthIdx - 1
      rw [monthIdx_plusMonths]
      ring
    · show (rM.plusMonths (-1)).monthIdx = rM.monthIdx - 1
      rw [monthIdx_plusMonths]
      ring
    · show (lM.plusMonths 1).monthIdx = lM.monthIdx + 1
      rw [monthIdx_plusMonths]
    · show (rM.plusMonths 1).monthIdx = rM.monthIdx + 1
      rw [monthIdx_plusMonths]
  · intro hmd hsdp hE hlt
    obtain ⟨sd, ed, osd, oed, cl, shw, lM, rM, tp, aa, sdp, lc, scr, crl, rgs, mnd, mxd, msp⟩ := p
    dsimp only at hl hsdp hmd hE hlt ⊢
    subst hl
    subst hsdp
    subst hmd
    subst hE
    unfold updateMonthsInView monthsInView
    simp only [Bool.not_false, Bool.and_true, Bool.true_and, hlt, if_true]
    refine ⟨?_, rfl, ?_⟩
    · exact plusMonths_day2 (md.setDay 2) (-1) rfl
    · show (md.setDay 2).monthIdx = ((md.setDay 2).plusMonths (-1)).monthIdx + 1
      rw [monthIdx_plusMonths]
      ring

/-- C2 witness: a concrete linked state keeps the anchor invariant under a
concrete command sequence, and the maxDate clamp restores it. -/
theorem c2_linked_anchors_amended_witness :
    anchorInv (runNavs { basePicker with maxDate := some ⟨2023,6,15,12,0,0⟩, endDate := none }
      [LinkedNavCmd.prevLeft, LinkedNavCmd.nextRight,
       LinkedNavCmd.dropLeft 2025 7, LinkedNavCmd.dropRight 2030 2]) ∧
    anchorInv (updateMonthsInView { basePicker with maxDate := some ⟨2023,6,15,12,0,0⟩, endDate := none }) :=
  ⟨(c2_linked_anchors_amended { basePicker with maxDate := some ⟨2023,6,15,12,0,0⟩, endDate := none }
      [LinkedNavCmd.prevLeft, LinkedNavCmd.nextRight,
       LinkedNavCmd.dropLeft 2025 7, LinkedNavCmd.dropRight 2030 2]
      ⟨2023,6,15,12,0,0⟩ rfl ⟨rfl, rfl, by decide⟩).1,
   (c2_linked_anchors_amended { basePicker with maxDate := some ⟨2023,6,15,12,0,0⟩, endDate := none }
      [] ⟨2023,6,15,12,0,0⟩ rfl ⟨rfl, rfl, by decide⟩).2.2 rfl rfl rfl (by decide)⟩

/-- C3 counterexample: without a time picker, completing a selection at
target 2024-01-10 stores the end of that day, not the target instant
itself, so the claim that the engine sets end = t fails. -/
theorem c3_counterexample :
    (clickDate { basePicker with endDate := none } ⟨2024,1,10,0,0,0⟩).1.endDate
      = some (DT.endOfDay ⟨2024,1,10,0,0,0⟩) ∧
    (clickDate { basePicker with endDate := none } ⟨2024,1,10,0,0,0⟩).1.endDate
      ≠ some ⟨2024,1,10,0,0,0⟩ := by
  decide

/-- C3 (amended): outside single-date mode, a date-cell-chosen command
with target t sets start = t (start of day of t without a time picker) and
end = None when the end is present or t precedes the start at start of
day; otherwise it sets end = t (end of day of t without a time picker),
keeps start, and when auto-apply is configured it hides and dispatches the
apply event immediately. -/
theorem c3_click_date (p : Picker) (t : DT) (hsingle : p.singleDatePicker = false) :
    ((p.endDate.isSome = true ∨ DT.lt t p.startDate.startOfDay = true) →
      (clickDate p t).1.startDate = (if p.timePicker then t else t.startOfDay) ∧
      (clickDate p t).1.endDate = none ∧
      (clickDate p t).2 = []) ∧
    (p.endDate = none → DT.lt t p.startDate.startOfDay = false →
      (clickDate p t).1.startDate = p.startDate ∧
      (clickDate p t).1.endDate = some (if p.timePicker then t else t.endOfDay) ∧
      (p.autoApply = false → (clickDate p t).2 = []) ∧
      (p.autoApply = true → p.isShowing = true →
        (clickDate p t).1.isShowing = false ∧ Ev.applyEvt ∈ (clickDate p t).2)) := by
  obtain ⟨sd, ed, osd, oed, cl, shw, lM, rM, tp, aa, sdp, lc, scr, crl, rgs, mnd, mxd, msp⟩ := p
  dsimp only at hsingle ⊢
  subst hsingle
  constructor
  · intro hcond
    have hc : (ed.isSome || DT.lt t sd.startOfDay) = true := by
      rcases hcond with h | h <;> simp_all
    unfold clickDate
    simp only [hc, if_true]
    exact ⟨rfl, rfl, rfl⟩
  · intro hE hlt
    subst hE
    unfold clickDate
    simp only [Option.isSome_none, Bool.false_or, hlt, Bool.false_eq_true, if_false]
    cases aa with
    | false =>
      refine ⟨rfl, rfl, fun _ => rfl, fun hco _ => absurd hco (by simp)⟩
    | true =>
      cases shw with
      | false =>
        refine ⟨rfl, rfl, fun hco => absurd hco (by simp), ?_⟩
        intro _ hS
        exact absurd hS (by simp)
      | true =>
        refine ⟨rfl, rfl, fun hco => absurd hco (by simp), ?_⟩
        intro _ _
        refine ⟨rfl, ?_⟩
        simp [clickApply, hide, setEndDate, updateMonthsInView, calculateChosenLabel, List.mem_append]

/-- C3 witness: a concrete auto-apply completion hides the picker and
dispatches the apply event. -/
theorem c3_click_date_witness :
    (clickDate { basePicker with endDate := none, autoApply := true } ⟨2024,1,10,0,0,0⟩).1.isShowing = false ∧
    Ev.applyEvt ∈ (clickDate { basePicker with endDate := none, autoApply := true } ⟨2024,1,10,0,0,0⟩).2 :=
  ((c3_click_date { basePicker with endDate := none, autoApply := true } ⟨2024,1,10,0,0,0⟩ rfl).2
    rfl (by decide)).2.2.2 rfl rfl

/-- C4 counterexample: a direct setStartDate with a date later than the
present end keeps both endpoints as they are, leaving an inverted range
with end strictly before start and no swap. -/
theorem c4_counterexample :
    (setStartDate basePicker ⟨2024,1,10,0,0,0⟩).startDate = ⟨2024,1,10,0,0,0⟩ ∧
    (setStartDate basePicker ⟨2024,1,10,0,0,0⟩).endDate = some ⟨2024,1,5,23,59,59⟩ ∧
    DT.lt ⟨2024,1,5,23,59,59⟩ ⟨2024,1,10,0,0,0⟩ = true := by
  decide

/-- C4 (amended): the engine never normalizes by swapping: setStartDate
and setEndDate write one endpoint (normalized to start or end of day when
no time picker is active) and leave the other unchanged, so states with
start after end are representable; the engine guards them only by the
apply control, which is enabled exactly when an end is present and start
does not exceed it. -/
theorem c4_no_swap_apply_guard (p : Picker) (t : DT) :
    (setStartDate p t).endDate = p.endDate ∧
    (setStartDate p t).startDate = (if p.timePicker then t else t.startOfDay) ∧
    (setEndDate p t).startDate = p.startDate ∧
    (setEndDate p t).endDate = some (if p.timePicker then t else t.endOfDay) ∧
    (applyEnabled p = true ↔ ∃ e, p.endDate = some e ∧ (DT.lt p.startDate e = true ∨ p.startDate = e)) := by
  refine ⟨rfl, rfl, rfl, rfl, ?_⟩
  unfold applyEnabled
  cases hE : p.endDate with
  | none => simp
  | some e => simp [Bool.or_eq_true, beq_iff_eq]

set_option maxRecDepth 10000 in
/-- C5: for every anchor and firstDayOfWeek in 0..6 the grid has exactly 6
rows of 7 cells holding consecutive calendar days row-major, cell [0][0]
is day 1 of the anchor month minus (weekday(day1) - firstDayOfWeek + 7)
mod 7 days, every cell carries the anchor time of day; for Monday-first
March 2024 cell [0][0] is 2024-02-26 and cell [5][6] is 2024-04-07. -/
theorem c5_grid (anchor : DT) (fd : Nat) (hfd : fd ≤ 6) :
    (buildCalendar anchor fd).length = 6 ∧
    (∀ row ∈ buildCalendar anchor fd, row.length = 7) ∧
    cellAt (buildCalendar anchor fd) 0 0 =
      ((⟨anchor.year, anchor.month, 1, 0, 0, 0⟩ : DT).minusDays
        (((anchor.setDay 1).weekday % 7 + 7 - fd) % 7)).withTime
        anchor.hour anchor.minute anchor.second ∧
    (∀ i, i < 41 →
      cellAt (buildCalendar anchor fd) ((i + 1) / 7) ((i + 1) % 7)
        = (cellAt (buildCalendar anchor fd) (i / 7) (i % 7)).plusOneDay) ∧
    (∀ r c, r < 6 → c < 7 →
      (cellAt (buildCalendar anchor fd) r c).hour = anchor.hour ∧
      (cellAt (buildCalendar anchor fd) r c).minute = anchor.minute ∧
      (cellAt (buildCalendar anchor fd) r c).second = anchor.second) ∧
    cellAt (buildCalendar ⟨2024, 3, 2, 0, 0, 0⟩ 1) 0 0 = ⟨2024, 2, 26, 0, 0, 0⟩ ∧
    cellAt (buildCalendar ⟨2024, 3, 2, 0, 0, 0⟩ 1) 5 6 = ⟨2024, 4, 7, 0, 0, 0⟩ := by
  refine ⟨?_, ?_, ?_, ?_, ?_, by decide, by decide⟩
  · simp [buildCalendar]
  · intro row hrow
    simp only [buildCalendar, List.mem_map] at hrow
    obtain ⟨r, hr, hrow⟩ := hrow
    subst hrow
    simp
  · exact cellAt_buildCalendar anchor fd 0 0 (by norm_num) (by norm_num)
  · intro i hi
    have hr1 : (i + 1) / 7 < 6 := by omega
    have hc1 : (i + 1) % 7 < 7 := by omega
    have hr0 : i / 7 < 6 := by omega
    have hc0 : i % 7 < 7 := by omega
    rw [cellAt_buildCalendar anchor fd _ _ hr1 hc1, cellAt_buildCalendar anchor fd _ _ hr0 hc0]
    have e1 : 7 * ((i + 1) / 7) + (i + 1) % 7 = i + 1 := by omega
    have e0 : 7 * (i / 7) + i % 7 = i := by omega
    rw [e1, e0, plusOneDay_withTime]
    rfl
  · intro r c hr hc
    rw [cellAt_buildCalendar anchor fd r c hr hc]
    exact ⟨rfl, rfl, rfl⟩

set_option maxRecDepth 10000 in
/-- C5 witness: the Monday-first March 2024 scenario at firstDayOfWeek 1. -/
theorem c5_grid_witness :
    1 ≤ 6 ∧ cellAt (buildCalendar ⟨2024, 3, 2, 0, 0, 0⟩ 1) 0 0 = ⟨2024, 2, 26, 0, 0, 0⟩ :=
  ⟨by norm_num, (c5_grid ⟨2024, 3, 2, 0, 0, 0⟩ 1 (by norm_num)).2.2.2.2.2.1⟩

/-- C6: a cell with valid time fields is flagged in-range exactly when it
lies strictly after the start at end of day and strictly before the end at
start of day; no cell day-equal to the start or to the end is flagged, and
every cell on a day strictly between the two endpoints is. -/
theorem c6_in_range_exclusive (s e d : DT) (hv : d.validTime) :
    (isInRangeFlag d s (some e) = (DT.lt s.endOfDay d && DT.lt d e.startOfDay)) ∧
    (sameDay d s = true → isInRangeFlag d s (some e) = false) ∧
    (sameDay d e = true → isInRangeFlag d s (some e) = false) ∧
    (dayLt s d = true → dayLt d e = true → isInRangeFlag d s (some e) = true) := by
  refine ⟨rfl, ?_, ?_, ?_⟩
  · intro hsd
    rw [sameDay_iff] at hsd
    have hne : DT.lt s.endOfDay d = false := by
      rw [Bool.eq_false_iff]
      intro hlt
      rw [lt_endOfDay_iff s d hv, dayLt_iff] at hlt
      omega
    simp [isInRangeFlag, hne]
  · intro hse
    rw [sameDay_iff] at hse
    have hne : DT.lt d e.startOfDay = false := by
      rw [Bool.eq_false_iff]
      intro hlt
      rw [lt_startOfDay_iff d e, dayLt_iff] at hlt
      omega
    simp [isInRangeFlag, hne]
  · intro h1 h2
    have g1 : DT.lt s.endOfDay d = true := (lt_endOfDay_iff s d hv).mpr h1
    have g2 : DT.lt d e.startOfDay = true := (lt_startOfDay_iff d e).mpr h2
    simp [isInRangeFlag, g1, g2]

/-- C6 witness: a concrete strictly-between day is flagged in-range. -/
theorem c6_in_range_exclusive_witness :
    isInRangeFlag ⟨2024,5,10,0,0,0⟩ ⟨2024,5,5,0,0,0⟩ (some ⟨2024,5,15,0,0,0⟩) = true :=
  (c6_in_range_exclusive ⟨2024,5,5,0,0,0⟩ ⟨2024,5,15,0,0,0⟩ ⟨2024,5,10,0,0,0⟩
    (by decide)).2.2.2 (by decide) (by decide)

/-- C7 counterexample: hiding without apply while a complete changed
selection is present keeps the edited dates (they are not reset to the
committed snapshot) and emits the applied notification for them. -/
theorem c7_counterexample :
    (hide { basePicker with startDate := ⟨2024,3,10,0,0,0⟩, endDate := some ⟨2024,3,12,23,59,59⟩ }).1.startDate
      ≠ basePicker.oldStartDate ∧
    Ev.applied ⟨2024,3,10,0,0,0⟩ ⟨2024,3,12,23,59,59⟩ none ∈
      (hide { basePicker with startDate := ⟨2024,3,10,0,0,0⟩, endDate := some ⟨2024,3,12,23,59,59⟩ }).2 := by
  decide

/-- C7 (amended): cancel resets start and end to the committed snapshot
and emits no applied notification; hide without apply restores the
snapshot only when the selection is incomplete (end absent), in which case
it also emits no applied notification. -/
theorem c7_cancel_restores (p : Picker) :
    ((clickCancel p).1.startDate = p.oldStartDate ∧
     (clickCancel p).1.endDate = some p.oldEndDate ∧
     ∀ s e l, Ev.applied s e l ∉ (clickCancel p).2) ∧
    (p.endDate = none → p.isShowing = true →
      (hide p).1.startDate = p.oldStartDate ∧
      (hide p).1.endDate = some p.oldEndDate ∧
      ∀ s e l, Ev.applied s e l ∉ (hide p).2) := by
  constructor
  · unfold clickCancel hide
    cases h : p.isShowing <;> simp [h]
  · intro hE hS
    unfold hide
    simp [hE, hS]

/-- C7 witness: a concrete incomplete-selection hide restores the
committed snapshot. -/
theorem c7_cancel_restores_witness :
    (hide { basePicker with endDate := none }).1.startDate = basePicker.oldStartDate ∧
    (hide { basePicker with endDate := none }).1.endDate = some basePicker.oldEndDate :=
  ⟨((c7_cancel_restores { basePicker with endDate := none }).2 rfl rfl).1,
   ((c7_cancel_restores { basePicker with endDate := none }).2 rfl rfl).2.1⟩

/-- C8 counterexample: hovering 2024-01-10 from start 2024-01-05 puts the
in-range class on the cell of 2024-01-10 itself, although that cell does
not satisfy the claimed predicate (it is not strictly before the hovered
day at start of day). -/
theorem c8_counterexample :
    hoverInRange ⟨2024,1,5,0,0,0⟩ ⟨2024,1,10,0,0,0⟩ ⟨2024,1,10,0,0,0⟩ = true ∧
    ¬(DT.lt (DT.endOfDay ⟨2024,1,5,0,0,0⟩) ⟨2024,1,10,0,0,0⟩ = true ∧
      DT.lt ⟨2024,1,10,0,0,0⟩ (DT.startOfDay ⟨2024,1,10,0,0,0⟩) = true) := by
  decide

/-- C8 (amended): while picking the end, hovering h marks a cell d exactly
when d lies on a day strictly between the start and h, or d shares the
calendar day of h itself; the handler writes no selection field (it is a
pure classification of the rendered cells). -/
theorem c8_hover_amended (s h d : DT) (hv : d.validTime) :
    hoverInRange s d h = true ↔
      ((dayLt s d = true ∧ dayLt d h = true) ∨ sameDay d h = true) := by
  unfold hoverInRange
  simp only [Bool.or_eq_true, Bool.and_eq_true]
  rw [lt_endOfDay_iff s d hv, lt_startOfDay_iff d h]

/-- C8 witness: a concrete strictly-between cell is marked by hover. -/
theorem c8_hover_amended_witness :
    hoverInRange ⟨2024,1,5,0,0,0⟩ ⟨2024,1,6,10,0,0⟩ ⟨2024,1,8,0,0,0⟩ = true :=
  (c8_hover_amended ⟨2024,1,5,0,0,0⟩ ⟨2024,1,8,0,0,0⟩ ⟨2024,1,6,10,0,0⟩
    (by decide)).mpr (Or.inl ⟨by decide, by decide⟩)

/-- C9: choosing a non-custom preset label loads the stored pair, hides
the picker and dispatches the apply event whatever the autoApply
configuration is; choosing the reserved custom label changes only the
chosen label and commits nothing. -/
theorem c9_preset_commit (p q : Picker) (label : String) (rs re : DT)
    (hshow : p.isShowing = true)
    (hne : label ≠ p.customRangeLabel)
    (hlk : lookupRange p.ranges label = some (rs, re))
    (hnorm : p.timePicker = false → rs.startOfDay = rs ∧ re.endOfDay = re) :
    ((clickRange p label).1.startDate = rs ∧
     (clickRange p label).1.endDate = some re ∧
     (clickRange p label).1.isShowing = false ∧
     Ev.applyEvt ∈ (clickRange p label).2) ∧
    ((clickRange q q.customRangeLabel).1 = { q with chosenLabel := some q.customRangeLabel } ∧
     (clickRange q q.customRangeLabel).2 = []) := by
  constructor
  · have hred : clickRange p label =
        clickApply (setEndDate (setStartDate { p with chosenLabel := some label } rs) re) := by
      unfold clickRange
      rw [if_neg hne, hlk]
    have hE : (setEndDate (setStartDate { p with chosenLabel := some label } rs) re).endDate
        = some (if p.timePicker then re else re.endOfDay) := rfl
    have hS : (setEndDate (setStartDate { p with chosenLabel := some label } rs) re).isShowing = true := hshow
    have h1 := clickApply_fields _ _ hS hE
    rw [hred]
    refine ⟨?_, ?_, h1.2.2.1, h1.2.2.2⟩
    · rw [h1.1]
      show (if p.timePicker then rs else rs.startOfDay) = rs
      cases hT : p.timePicker with
      | true => rfl
      | false => simpa using (hnorm hT).1
    · rw [h1.2.1, hE]
      cases hT : p.timePicker with
      | true => rfl
      | false => simp [hT, (hnorm hT).2]
  · constructor
    · unfold clickRange
      rw [if_pos rfl]
    · unfold clickRange
      rw [if_pos rfl]

/-- C9 witness: a concrete preset choice loads the stored start and hides
the picker. -/
theorem c9_preset_commit_witness :
    (clickRange { basePicker with ranges := [("w", ⟨2024,2,1,0,0,0⟩, ⟨2024,2,7,23,59,59⟩)] } "w").1.startDate
      = ⟨2024,2,1,0,0,0⟩ ∧
    (clickRange { basePicker with ranges := [("w", ⟨2024,2,1,0,0,0⟩, ⟨2024,2,7,23,59,59⟩)] } "w").1.isShowing
      = false :=
  have h := c9_preset_commit
    { basePicker with ranges := [("w", ⟨2024,2,1,0,0,0⟩, ⟨2024,2,7,23,59,59⟩)] } basePicker "w"
    ⟨2024,2,1,0,0,0⟩ ⟨2024,2,7,23,59,59⟩ rfl (by decide) (by decide) (fun _ => ⟨rfl, rfl⟩)
  ⟨h.1.1, h.1.2.2.1⟩

/-- C10: in linked mode with single-date mode off, the prev arrow is never
rendered available on the right calendar and the next arrow never on the
left calendar (the cell renders inert), so prev on the left and next on
the right are the only navigation arrows reachable in that mode. -/
theorem c10_linked_nav_controls (minDateLimit maxDateLimit : Option DT) (firstDayCell lastDayCell : DT) :
    isPrevAvailable Side.right true minDateLimit firstDayCell = false ∧
    isNextAvailable Side.left true false maxDateLimit lastDayCell = false := by
  constructor <;> simp [isPrevAvailable, isNextAvailable]

end DRP
